import Mathlib

/-!
Verification of the try-on job orchestration flow of the fashion-tagging
backend (`app/services/tryon.py` and `app/routers/tryon.py`), as a shallow
embedding.  Vendor HTTP responses, wall-clock readings and the PIL decode of
the uploaded bytes are modelled as an explicit environment (oracle) passed to
the functions; Python float arithmetic in the resize step is modelled by an
exact implementation of IEEE binary64 rounding (round to nearest, ties to
even, 53-bit significand) over integer fractions, which reproduces Python's
`scale = max_side / max(w, h)` and `int(w * scale)` bit for bit in the
normal range; the base64 text of the result image is represented by the
byte sequence it encodes (the encoding is injective and nothing inspected
here depends on its textual form).
-/

/-- Raw byte strings, abstracted as lists of byte values. -/
abbrev Bytes := List Nat

/-- What `PIL.Image.open(...).convert("RGB")` yields for an uploaded blob:
either the decode raises, or an image with a width and a height. -/
inductive ImageData where
  | undecodable
  | decoded (w h : Nat)
deriving DecidableEq, Repr

/-- The single exception class `TryOnServiceError` of the service, refined by
the program point that raises it (the Python code distinguishes these only by
the message string).  `policyKeyError` stands for the `KeyError` raised in
`_upload_to_oss` when the policy dict is empty; `fuelExhausted` marks a
truncated model run of the polling loop (unreachable for sufficient fuel, see
the termination theorem). -/
inductive TryOnError where
  | badImage
  | tooSmall
  | noApiKey
  | policyHttp (status : Nat)
  | policyKeyError
  | uploadHttp (status : Nat)
  | createHttp (status : Nat)
  | noTaskId
  | pollHttp (status : Nat)
  | jobFailed (reason : String)
  | pollTimeout
  | fuelExhausted
  | noImageUrl
  | downloadHttp (status : Nat)
deriving DecidableEq, Repr

/-- The vendor HTTP calls the service can make, in the order they are issued;
used to record the trace of one request. -/
inductive VendorCall where
  | policyFetch
  | assetUpload (fileName : String)
  | jobSubmit
  | poll (k : Nat)
  | resultDownload (url : String)
deriving DecidableEq, Repr

/-- `SUPPORTED_TRYON_MODELS` from `app/services/tryon.py`. -/
def SUPPORTED_TRYON_MODELS : List String := ["aitryon", "aitryon-plus"]

/-- Python's `str.strip()` (no arguments): drop leading and trailing
whitespace.  Implemented by structural recursion so that concrete instances
evaluate inside the kernel. -/
def pyStrip (s : String) : String :=
  ⟨(((s.data.dropWhile Char.isWhitespace).reverse.dropWhile
      Char.isWhitespace).reverse)⟩

/-- `(model or TRYON_MODEL).strip() or TRYON_MODEL` from `_normalize_model`
(Python truthiness: `None` and `""` fall through to the configured default,
and a whitespace-only strip result falls back to the default unstripped). -/
def effectiveName (tryonModel : String) (model : Option String) : String :=
  match model with
  | none =>
    if pyStrip tryonModel = "" then tryonModel else pyStrip tryonModel
  | some s =>
    if s = "" then
      if pyStrip tryonModel = "" then tryonModel else pyStrip tryonModel
    else
      if pyStrip s = "" then tryonModel else pyStrip s

/-- `_normalize_model`: unsupported effective names fall back to the
configured `TRYON_MODEL` (passed here as `tryonModel`). -/
def normalizeModel (tryonModel : String) (model : Option String) : String :=
  if effectiveName tryonModel model ∈ SUPPORTED_TRYON_MODELS then
    effectiveName tryonModel model
  else tryonModel

/-- Fuel-indexed base-2 logarithm (structural recursion, so that concrete
instances evaluate inside the kernel; `n` itself is always enough fuel). -/
def log2fuel : Nat → Nat → Nat
  | 0, _ => 0
  | fuel + 1, n => if 2 ≤ n then log2fuel fuel (n / 2) + 1 else 0

/-- `⌊log₂ n⌋` for positive `n`. -/
def nlog2 (n : Nat) : Nat := log2fuel n n

/-- Round the nonnegative fraction `a / b` to the nearest integer, ties to
even — the rounding step of IEEE-754 round-to-nearest-even. -/
def rne (a b : Nat) : Nat :=
  if 2 * (a % b) < b then a / b
  else if b < 2 * (a % b) then a / b + 1
  else if a / b % 2 = 0 then a / b else a / b + 1

/-- The binary exponent of the positive fraction `a / b`: the unique `e`
with `2 ^ e ≤ a / b < 2 ^ (e + 1)`. -/
def ratExp (a b : Nat) : Int :=
  if 0 ≤ (nlog2 a : Int) - (nlog2 b : Int) then
    (if b * 2 ^ ((nlog2 a : Int) - (nlog2 b : Int)).toNat ≤ a then
      (nlog2 a : Int) - (nlog2 b : Int)
    else (nlog2 a : Int) - (nlog2 b : Int) - 1)
  else
    (if b ≤ a * 2 ^ ((nlog2 b : Int) - (nlog2 a : Int)).toNat then
      (nlog2 a : Int) - (nlog2 b : Int)
    else (nlog2 a : Int) - (nlog2 b : Int) - 1)

/-- IEEE binary64 rounding (round to nearest, ties to even, 53-bit
significand) of the positive fraction `a / b`, returned as an exact dyadic
fraction (numerator, power-of-two denominator).  This is the value Python
computes for a float operation whose exact result is `a / b`, in the normal
range (no overflow or subnormals occur at the magnitudes used here). -/
def roundPosRat (a b : Nat) : Nat × Nat :=
  if 0 ≤ ratExp a b - 52 then
    (rne a (b * 2 ^ (ratExp a b - 52).toNat) * 2 ^ (ratExp a b - 52).toNat, 1)
  else
    (rne (a * 2 ^ (52 - ratExp a b).toNat) b, 2 ^ (52 - ratExp a b).toNat)

/-- `int(x * scale)` where `scale = maxSide / m` — both operations in IEEE
doubles exactly as Python executes them (`int()` truncates, which is the
floor for these nonnegative values).  Faithful to CPython for `x < 2^53`,
where the int-to-float conversion in `x * scale` is exact. -/
def floatScaled (maxSide x m : Nat) : Nat :=
  (roundPosRat (x * (roundPosRat maxSide m).1) (roundPosRat maxSide m).2).1 /
    (roundPosRat (x * (roundPosRat maxSide m).1) (roundPosRat maxSide m).2).2

/-- The unit roundoff of binary64: relative rounding error bound `2⁻⁵³`. -/
def u53 : ℚ := ((2 : ℚ) ^ (53 : ℕ))⁻¹

/-- `_prepare_image`, restricted to the dimension logic (the JPEG re-encode
and the 5MB quality loop do not change dimensions and are not inspected by
any claim).  Returns the dimensions of the processed image.  The resize
computes `scale = max_side / max(w, h)` and `int(w * scale)`,
`int(h * scale)` in IEEE doubles, modelled exactly by `floatScaled`. -/
def prepareImage (maxSide minSide : Nat) (img : ImageData) :
    Except TryOnError (Nat × Nat) :=
  match img with
  | .undecodable => .error .badImage
  | .decoded w h =>
    if min w h < minSide then .error .tooSmall
    else if maxSide < max w h then
      .ok (floatScaled maxSide w (max w h), floatScaled maxSide h (max w h))
    else .ok (w, h)

/-- The `data` field of one upload-policy response; only `upload_dir` is
needed to form the object key (`_upload_to_oss` line `key = f"{policy['upload_dir']}/{file_name}"`). -/
structure UploadPolicy where
  upload_dir : String
deriving DecidableEq, Repr

/-- The `output` object of one task-status poll response; the code reads only
`image_url`, while `inline_b64` records inline result bytes a vendor response
may carry (the spec's alternate result shape) — the code never reads it. -/
structure TaskOutput where
  image_url : Option String
  inline_b64 : Option Bytes
deriving DecidableEq, Repr

/-- One HTTP response to `GET /api/v1/tasks/{task_id}`. -/
structure PollResp where
  httpStatus : Nat
  taskStatus : Option String
  output : TaskOutput
deriving DecidableEq, Repr

/-- Oracle for the polling loop: the response to the k-th poll and the
elapsed wall-clock time `time.time() - start` observed at the timeout check
of the k-th iteration. -/
structure PollEnv where
  resp : Nat → PollResp
  elapsed : Nat → Nat

/-- Outcome of the polling loop `_poll_task`.  `fuelOut` means the model run
was truncated after exhausting its fuel while the code would still be
looping. -/
inductive PollOutcome where
  | success (out : TaskOutput)
  | httpError (status : Nat)
  | jobFailed (reason : String)
  | timedOut
  | fuelOut
deriving DecidableEq, Repr

/-- A poll response on which `_poll_task` keeps looping: HTTP 200 and a task
status that is neither the success state nor a terminal failure state. -/
def PollResp.isPending (r : PollResp) : Prop :=
  r.httpStatus = 200 ∧ r.taskStatus ≠ some "SUCCEEDED" ∧
    r.taskStatus ≠ some "FAILED" ∧ r.taskStatus ≠ some "UNKNOWN" ∧
    r.taskStatus ≠ some "CANCELED"

instance (r : PollResp) : Decidable r.isPending := by
  unfold PollResp.isPending; infer_instance

/-- The `while True` loop of `_poll_task`, fuel-indexed.  Iteration `k`
checks, in the code's order: non-200 poll response, `SUCCEEDED`, the terminal
failure statuses, then the timeout `time.time() - start > timeout`; only then
does it sleep and loop (consuming one unit of fuel).  The second component is
the total number of polls performed (`interval` is the sleep duration; it
matters only through the `elapsed` oracle). -/
def pollLoopFuel (env : PollEnv) (interval timeout : Nat) :
    Nat → Nat → PollOutcome × Nat
  | fuel, k =>
    let r := env.resp k
    if r.httpStatus ≠ 200 then (.httpError r.httpStatus, k + 1)
    else if r.taskStatus = some "SUCCEEDED" then (.success r.output, k + 1)
    else if r.taskStatus = some "FAILED" ∨ r.taskStatus = some "UNKNOWN" ∨
        r.taskStatus = some "CANCELED" then
      (.jobFailed (r.taskStatus.getD ""), k + 1)
    else if timeout < env.elapsed k then (.timedOut, k + 1)
    else
      match fuel with
      | 0 => (.fuelOut, k + 1)
      | fuel' + 1 => pollLoopFuel env interval timeout fuel' (k + 1)

/-- Configuration consumed by the flow (`app/config.py`):
`DASHSCOPE_API_KEY`, `TRYON_MODEL`, and `TRYON_RESULT_DIR` as a relative path
split into segments (default `["static", "tryon_results"]`). -/
structure Config where
  apiKey : Option String
  tryonModel : String
  resultDir : List String

/-- Oracle for every vendor interaction of one request. -/
structure VendorEnv where
  policyStatus : Nat
  policyData : Option UploadPolicy
  uploadStatus : String → Nat
  createStatus : Nat
  createTaskId : Option String
  poll : PollEnv
  downloadStatus : String → Nat
  downloadBytes : String → Bytes

/-- The dict returned by `generate_tryon_image` on success.
`result_image_base64` holds the downloaded bytes (standing for their base64
text); `image_url` is `static_url or image_url` — never absent. -/
structure TryOnPayload where
  result_image_base64 : Bytes
  model : String
  prompt : String
  job_id : String
  image_url : String
deriving DecidableEq, Repr

instance {ε α : Type} [DecidableEq ε] [DecidableEq α] : DecidableEq (Except ε α)
  | .error e, .error f =>
    if h : e = f then .isTrue (by rw [h]) else .isFalse (by simp [h])
  | .error _, .ok _ => .isFalse (by simp)
  | .ok _, .error _ => .isFalse (by simp)
  | .ok a, .ok b =>
    if h : a = b then .isTrue (by rw [h]) else .isFalse (by simp [h])

/-- Result of one orchestrated request: the returned value or raised error,
the trace of vendor HTTP calls, and the files written to the result store. -/
structure GenResult where
  result : Except TryOnError TryOnPayload
  calls : List VendorCall
  writes : List (List String × Bytes)
deriving DecidableEq, Repr

/-- `f"/static/{file_path.relative_to(Path('static')).as_posix()}"` guarded
by the `ValueError` handler: a static URL exists exactly when the configured
result directory lies under `static`. -/
def staticUrlFor (resultDir : List String) (fileName : String) : Option String :=
  match resultDir with
  | "static" :: rest => some ("/static/" ++ String.intercalate "/" (rest ++ [fileName]))
  | _ => none

/-- Lines 191–215 of `generate_tryon_image`: after a successful poll, read
`output.get("image_url")` (raise if falsy), download the bytes, write
`<resultDir>/<taskId>.png`, compute the static URL, and build the payload
with `"image_url": static_url or image_url` (Python truthiness: an empty
static URL would also fall back to the vendor URL). -/
def resolveAndPersist (env : VendorEnv) (cfg : Config) (modelName taskId : String)
    (out : TaskOutput) : GenResult :=
  match out.image_url with
  | none => ⟨.error .noImageUrl, [], []⟩
  | some url =>
    if url = "" then ⟨.error .noImageUrl, [], []⟩
    else
      let calls := [VendorCall.resultDownload url]
      if env.downloadStatus url ≠ 200 then
        ⟨.error (.downloadHttp (env.downloadStatus url)), calls, []⟩
      else
        let bytes := env.downloadBytes url
        let fileName := taskId ++ ".png"
        let staticUrl := staticUrlFor cfg.resultDir fileName
        let finalUrl := match staticUrl with
          | some s => if s = "" then url else s
          | none => url
        ⟨.ok ⟨bytes, modelName, "dashscope outfitanyone " ++ modelName, taskId, finalUrl⟩,
          calls, [(cfg.resultDir ++ [fileName], bytes)]⟩

/-- `generate_tryon_image`: normalize the model, fetch the upload policy
(the API-key check happens while building the headers, before the HTTP
call), then preprocess both images, upload both assets, create the task,
poll, and resolve the result.  Note the code's order: the policy fetch
precedes `_prepare_image`. -/
def generateTryonImage (cfg : Config) (env : VendorEnv)
    (userImg outfitImg : ImageData) (modelArg : Option String) (fuel : Nat) :
    GenResult :=
  match cfg.apiKey with
  | none => ⟨.error .noApiKey, [], []⟩
  | some _ =>
    if env.policyStatus ≠ 200 then
      ⟨.error (.policyHttp env.policyStatus), [.policyFetch], []⟩
    else
      match prepareImage 4000 150 userImg with
      | .error e => ⟨.error e, [.policyFetch], []⟩
      | .ok _ =>
        match prepareImage 4000 150 outfitImg with
        | .error e => ⟨.error e, [.policyFetch], []⟩
        | .ok _ =>
          match env.policyData with
          | none => ⟨.error .policyKeyError, [.policyFetch], []⟩
          | some pol =>
            if env.uploadStatus (pol.upload_dir ++ "/person.jpg") ≠ 200 then
              ⟨.error (.uploadHttp (env.uploadStatus (pol.upload_dir ++ "/person.jpg"))),
                [.policyFetch, .assetUpload "person.jpg"], []⟩
            else if env.uploadStatus (pol.upload_dir ++ "/garment.jpg") ≠ 200 then
              ⟨.error (.uploadHttp (env.uploadStatus (pol.upload_dir ++ "/garment.jpg"))),
                [.policyFetch, .assetUpload "person.jpg", .assetUpload "garment.jpg"], []⟩
            else if env.createStatus ≠ 200 then
              ⟨.error (.createHttp env.createStatus),
                [.policyFetch, .assetUpload "person.jpg", .assetUpload "garment.jpg",
                  .jobSubmit], []⟩
            else
              match env.createTaskId with
              | none =>
                ⟨.error .noTaskId,
                  [.policyFetch, .assetUpload "person.jpg", .assetUpload "garment.jpg",
                    .jobSubmit], []⟩
              | some taskId =>
                if taskId = "" then
                  ⟨.error .noTaskId,
                    [.policyFetch, .assetUpload "person.jpg", .assetUpload "garment.jpg",
                      .jobSubmit], []⟩
                else
                  match pollLoopFuel env.poll 3 300 fuel 0 with
                  | (.httpError n, c) =>
                    ⟨.error (.pollHttp n),
                      [.policyFetch, .assetUpload "person.jpg", .assetUpload "garment.jpg",
                        .jobSubmit] ++ (List.range c).map VendorCall.poll, []⟩
                  | (.jobFailed s, c) =>
                    ⟨.error (.jobFailed s),
                      [.policyFetch, .assetUpload "person.jpg", .assetUpload "garment.jpg",
                        .jobSubmit] ++ (List.range c).map VendorCall.poll, []⟩
                  | (.timedOut, c) =>
                    ⟨.error .pollTimeout,
                      [.policyFetch, .assetUpload "person.jpg", .assetUpload "garment.jpg",
                        .jobSubmit] ++ (List.range c).map VendorCall.poll, []⟩
                  | (.fuelOut, c) =>
                    ⟨.error .fuelExhausted,
                      [.policyFetch, .assetUpload "person.jpg", .assetUpload "garment.jpg",
                        .jobSubmit] ++ (List.range c).map VendorCall.poll, []⟩
                  | (.success out, c) =>
                    ⟨(resolveAndPersist env cfg (normalizeModel cfg.tryonModel modelArg)
                        taskId out).result,
                      ([.policyFetch, .assetUpload "person.jpg", .assetUpload "garment.jpg",
                        .jobSubmit] ++ (List.range c).map VendorCall.poll) ++
                        (resolveAndPersist env cfg (normalizeModel cfg.tryonModel modelArg)
                          taskId out).calls,
                      (resolveAndPersist env cfg (normalizeModel cfg.tryonModel modelArg)
                        taskId out).writes⟩

/-- The JSON body returned by `try_on` on success. -/
structure RouterPayload where
  jobId : String
  resultImageBase64 : Bytes
  imageUrl : Option String
  model : String
  prompt : String
  message : String
deriving DecidableEq, Repr

/-- An HTTP response of the `/tryon` router: 200 with the success payload, or
an error status with the `code` field of the detail dict. -/
inductive RouterResp where
  | ok (payload : RouterPayload)
  | err (status : Nat) (code : String)
deriving DecidableEq, Repr

/-- The `POST /tryon` handler `try_on`: empty uploads yield 400; every
`TryOnServiceError` (and any other exception) from the service becomes
`HTTPException(502, {code: "try_on_failed"})`.  `freshId` stands for the
`uuid.uuid4().hex` used when the service returns a falsy job id. -/
def tryOnRoute (cfg : Config) (env : VendorEnv) (userEmpty outfitEmpty : Bool)
    (userImg outfitImg : ImageData) (modelArg : Option String) (fuel : Nat)
    (freshId : String) : RouterResp × List VendorCall × List (List String × Bytes) :=
  if userEmpty then (.err 400 "user_image_missing", [], [])
  else if outfitEmpty then (.err 400 "outfit_image_missing", [], [])
  else
    let g := generateTryonImage cfg env userImg outfitImg modelArg fuel
    match g.result with
    | .error _ => (.err 502 "try_on_failed", g.calls, g.writes)
    | .ok p =>
      let jobId := if p.job_id = "" then freshId else p.job_id
      (.ok ⟨jobId, p.result_image_base64, some p.image_url, p.model, p.prompt, "换装完成"⟩,
        g.calls, g.writes)

/-! ## Concrete fixtures used by witnesses and counterexamples -/

/-- A vendor upload policy with a fixed upload directory. -/
def testPolicy : UploadPolicy := ⟨"updir"⟩

/-- A successful poll output carrying a direct result URL. -/
def testOut : TaskOutput := ⟨some "http://vendor/img.png", none⟩

/-- Two pending polls, then success on attempt 2; time advances 3s per poll. -/
def testPollEnv : PollEnv :=
  ⟨fun k => if k < 2 then ⟨200, some "RUNNING", ⟨none, none⟩⟩
    else ⟨200, some "SUCCEEDED", testOut⟩,
   fun k => 3 * k⟩

/-- A vendor that never finishes: every poll reports RUNNING. -/
def testPollEnvPending : PollEnv :=
  ⟨fun _ => ⟨200, some "RUNNING", ⟨none, none⟩⟩, fun k => 3 * k⟩

/-- Success on the very first poll, observed after the timeout bound. -/
def testPollEnvLate : PollEnv :=
  ⟨fun _ => ⟨200, some "SUCCEEDED", testOut⟩, fun _ => 1000⟩

/-- A successful poll output with inline result bytes but no direct URL. -/
def testOutInline : TaskOutput := ⟨none, some [1, 2, 3]⟩

/-- Immediate success whose output carries only inline bytes. -/
def testPollEnvInline : PollEnv :=
  ⟨fun _ => ⟨200, some "SUCCEEDED", testOutInline⟩, fun k => 3 * k⟩

/-- A fully cooperative vendor for the happy path. -/
def testEnv : VendorEnv :=
  ⟨200, some testPolicy, fun _ => 200, 200, some "task42", testPollEnv,
    fun _ => 200, fun _ => [7, 7]⟩

/-- Same vendor, but the successful output has only inline bytes. -/
def testEnvInline : VendorEnv :=
  ⟨200, some testPolicy, fun _ => 200, 200, some "task42", testPollEnvInline,
    fun _ => 200, fun _ => [7, 7]⟩

/-- The default configuration: result dir `static/tryon_results`. -/
def testCfg : Config := ⟨some "key", "aitryon-plus", ["static", "tryon_results"]⟩

/-- A configuration whose result dir is not under the static root. -/
def testCfgNoStatic : Config := ⟨some "key", "aitryon-plus", ["results"]⟩

/-! ## Orchestrator lemmas -/

theorem resolveAndPersist_spec (env : VendorEnv) (cfg : Config) (m t : String)
    (out : TaskOutput) :
    ((resolveAndPersist env cfg m t out).writes ≠ [] ↔
      ∃ p, (resolveAndPersist env cfg m t out).result = Except.ok p) ∧
    (∀ e, (resolveAndPersist env cfg m t out).result = Except.error e →
      (resolveAndPersist env cfg m t out).writes = []) ∧
    (∀ p, (resolveAndPersist env cfg m t out).result = Except.ok p →
      ∃ url, out.image_url = some url ∧ env.downloadStatus url = 200 ∧
        p.job_id = t ∧ p.result_image_base64 = env.downloadBytes url ∧
        (resolveAndPersist env cfg m t out).writes =
          [(cfg.resultDir ++ [t ++ ".png"], env.downloadBytes url)]) := by
  unfold resolveAndPersist
  split
  · simp
  · split
    · simp
    · split
      · simp
      · rename_i url hurl hne h200
        refine ⟨by simp, by simp, ?_⟩
        intro p hp
        simp only [Except.ok.injEq] at hp
        refine ⟨url, hurl, by omega, ?_, ?_, by simp⟩
        · rw [← hp]
        · rw [← hp]

/-- Under fully successful vendor interactions up to the poll, the
orchestrator's outcome is determined by `resolveAndPersist` on the successful
poll output. -/
theorem generateTryonImage_happy (cfg : Config) (env : VendorEnv)
    (userImg outfitImg : ImageData) (modelArg : Option String) (fuel : Nat)
    (key : String) (du dg : Nat × Nat) (pol : UploadPolicy) (taskId : String)
    (out : TaskOutput) (n : Nat)
    (hkey : cfg.apiKey = some key)
    (hpol : env.policyStatus = 200)
    (hu : prepareImage 4000 150 userImg = .ok du)
    (hg : prepareImage 4000 150 outfitImg = .ok dg)
    (hdata : env.policyData = some pol)
    (hup1 : env.uploadStatus (pol.upload_dir ++ "/person.jpg") = 200)
    (hup2 : env.uploadStatus (pol.upload_dir ++ "/garment.jpg") = 200)
    (hcr : env.createStatus = 200)
    (htid : env.createTaskId = some taskId)
    (htne : taskId ≠ "")
    (hpoll : pollLoopFuel env.poll 3 300 fuel 0 = (PollOutcome.success out, n)) :
    generateTryonImage cfg env userImg outfitImg modelArg fuel =
      ⟨(resolveAndPersist env cfg (normalizeModel cfg.tryonModel modelArg) taskId out).result,
        ([VendorCall.policyFetch, VendorCall.assetUpload "person.jpg",
          VendorCall.assetUpload "garment.jpg", VendorCall.jobSubmit] ++
          (List.range n).map VendorCall.poll) ++
          (resolveAndPersist env cfg (normalizeModel cfg.tryonModel modelArg) taskId out).calls,
        (resolveAndPersist env cfg (normalizeModel cfg.tryonModel modelArg) taskId out).writes⟩ := by
  unfold generateTryonImage
  rw [hkey, hpol, hu, hg, hdata, htid, hpoll]
  simp [hup1, hup2, hcr, htne]

/-- C3: a result file is written to the result store iff the flow returns a
TryOnResult; on every error nothing is persisted; and a returned result
implies the remote job polled to the succeeded status with a resolvable
image URL whose download returned 200 — the single persisted file holds
exactly the downloaded bytes under `<resultDir>/<jobId>.png`. -/
theorem tryon_C3_persist_iff_success (cfg : Config) (env : VendorEnv)
    (userImg outfitImg : ImageData) (modelArg : Option String) (fuel : Nat) :
    ((generateTryonImage cfg env userImg outfitImg modelArg fuel).writes ≠ [] ↔
      ∃ p, (generateTryonImage cfg env userImg outfitImg modelArg fuel).result =
        Except.ok p) ∧
    (∀ e, (generateTryonImage cfg env userImg outfitImg modelArg fuel).result =
        Except.error e →
      (generateTryonImage cfg env userImg outfitImg modelArg fuel).writes = []) ∧
    (∀ p, (generateTryonImage cfg env userImg outfitImg modelArg fuel).result =
        Except.ok p →
      ∃ out url n, pollLoopFuel env.poll 3 300 fuel 0 = (PollOutcome.success out, n) ∧
        out.image_url = some url ∧ env.downloadStatus url = 200 ∧
        p.result_image_base64 = env.downloadBytes url ∧
        (generateTryonImage cfg env userImg outfitImg modelArg fuel).writes =
          [(cfg.resultDir ++ [p.job_id ++ ".png"], env.downloadBytes url)]) := by
  unfold generateTryonImage
  repeat' split
  all_goals try (simp; done)
  rename_i taskId hcid hne x out c heq
  have hspec := resolveAndPersist_spec env cfg
    (normalizeModel cfg.tryonModel modelArg) taskId out
  refine ⟨hspec.1, hspec.2.1, ?_⟩
  intro p hp
  obtain ⟨url, hurl, h200, hjid, hbytes, hw⟩ := hspec.2.2 p hp
  refine ⟨out, url, c, heq, hurl, h200, hbytes, ?_⟩
  rw [hjid]
  exact hw

/-! ## Polling-loop lemmas -/

theorem pollLoopFuel_succeeded (env : PollEnv) (interval timeout fuel k : Nat)
    (h200 : (env.resp k).httpStatus = 200)
    (hs : (env.resp k).taskStatus = some "SUCCEEDED") :
    pollLoopFuel env interval timeout fuel k =
      (PollOutcome.success (env.resp k).output, k + 1) := by
  unfold pollLoopFuel
  simp [h200, hs]

theorem pollLoopFuel_step (env : PollEnv) (interval timeout fuel k : Nat)
    (hp : (env.resp k).isPending) (ht : env.elapsed k ≤ timeout) :
    pollLoopFuel env interval timeout (fuel + 1) k =
      pollLoopFuel env interval timeout fuel (k + 1) := by
  obtain ⟨h200, hs, hf, hu, hc⟩ := hp
  conv_lhs => unfold pollLoopFuel
  simp [h200, hs, hf, hu, hc, Nat.not_lt.mpr ht]

theorem pollLoopFuel_zero_pending (env : PollEnv) (interval timeout k : Nat)
    (hp : (env.resp k).isPending) (ht : env.elapsed k ≤ timeout) :
    pollLoopFuel env interval timeout 0 k = (PollOutcome.fuelOut, k + 1) := by
  obtain ⟨h200, hs, hf, hu, hc⟩ := hp
  unfold pollLoopFuel
  simp [h200, hs, hf, hu, hc, Nat.not_lt.mpr ht]

theorem pollLoopFuel_exit (env : PollEnv) (interval timeout fuel k : Nat)
    (h : ¬((env.resp k).isPending ∧ env.elapsed k ≤ timeout)) :
    (pollLoopFuel env interval timeout fuel k).2 = k + 1 ∧
      (pollLoopFuel env interval timeout fuel k).1 ≠ PollOutcome.fuelOut := by
  by_cases h1 : (env.resp k).httpStatus = 200
  · by_cases h2 : (env.resp k).taskStatus = some "SUCCEEDED"
    · rw [pollLoopFuel_succeeded env interval timeout fuel k h1 h2]
      simp
    · by_cases h3 : (env.resp k).taskStatus = some "FAILED" ∨
          (env.resp k).taskStatus = some "UNKNOWN" ∨
          (env.resp k).taskStatus = some "CANCELED"
      · unfold pollLoopFuel
        simp [h1, h2, h3]
      · push_neg at h3
        have hto : timeout < env.elapsed k := by
          by_contra hto
          exact h ⟨⟨h1, h2, h3.1, h3.2.1, h3.2.2⟩, Nat.not_lt.mp hto⟩
        unfold pollLoopFuel
        simp [h1, h2, h3.1, h3.2.1, h3.2.2, hto]
  · unfold pollLoopFuel
    simp [h1]

theorem pollLoopFuel_count_ge (env : PollEnv) (interval timeout : Nat) :
    ∀ fuel k, k + 1 ≤ (pollLoopFuel env interval timeout fuel k).2 := by
  intro fuel
  induction fuel with
  | zero =>
    intro k
    by_cases h : (env.resp k).isPending ∧ env.elapsed k ≤ timeout
    · rw [pollLoopFuel_zero_pending env interval timeout k h.1 h.2]
    · exact le_of_eq (pollLoopFuel_exit env interval timeout 0 k h).1.symm
  | succ f ih =>
    intro k
    by_cases h : (env.resp k).isPending ∧ env.elapsed k ≤ timeout
    · rw [pollLoopFuel_step env interval timeout f k h.1 h.2]
      exact le_trans (by omega) (ih (k + 1))
    · exact le_of_eq (pollLoopFuel_exit env interval timeout (f + 1) k h).1.symm

theorem pollLoopFuel_first_success (env : PollEnv) (interval timeout : Nat) :
    ∀ N fuel k,
      (∀ j, j < N → (env.resp (k + j)).isPending ∧ env.elapsed (k + j) ≤ timeout) →
      (env.resp (k + N)).httpStatus = 200 →
      (env.resp (k + N)).taskStatus = some "SUCCEEDED" →
      N ≤ fuel →
      pollLoopFuel env interval timeout fuel k =
        (PollOutcome.success (env.resp (k + N)).output, k + N + 1) := by
  intro N
  induction N with
  | zero =>
    intro fuel k _ h200 hs _
    simpa using pollLoopFuel_succeeded env interval timeout fuel k h200 hs
  | succ n ih =>
    intro fuel k hpend h200 hs hfuel
    obtain ⟨f, rfl⟩ : ∃ f, fuel = f + 1 := ⟨fuel - 1, by omega⟩
    have h0 := hpend 0 (by omega)
    rw [Nat.add_zero] at h0
    rw [pollLoopFuel_step env interval timeout f k h0.1 h0.2]
    have hpend' : ∀ j, j < n → (env.resp (k + 1 + j)).isPending ∧
        env.elapsed (k + 1 + j) ≤ timeout := by
      intro j hj
      have := hpend (j + 1) (by omega)
      rwa [show k + (j + 1) = k + 1 + j by omega] at this
    have := ih f (k + 1) hpend'
      (by rwa [show k + 1 + n = k + (n + 1) by omega])
      (by rwa [show k + 1 + n = k + (n + 1) by omega]) (by omega)
    rw [this, show k + 1 + n = k + (n + 1) by omega]

theorem pollLoopFuel_elapsed_lower (env : PollEnv) (interval : Nat)
    (hgap : ∀ k, env.elapsed k + interval ≤ env.elapsed (k + 1)) :
    ∀ k, k * interval ≤ env.elapsed k := by
  intro k
  induction k with
  | zero => simp
  | succ n ih =>
    calc (n + 1) * interval = n * interval + interval := by ring
    _ ≤ env.elapsed n + interval := by omega
    _ ≤ env.elapsed (n + 1) := hgap n

theorem pollLoopFuel_no_fuelOut (env : PollEnv) (interval timeout : Nat)
    (hi : 0 < interval)
    (hlow : ∀ k, k * interval ≤ env.elapsed k) :
    ∀ fuel k, timeout / interval + 1 ≤ fuel + k →
      (pollLoopFuel env interval timeout fuel k).1 ≠ PollOutcome.fuelOut := by
  intro fuel
  induction fuel with
  | zero =>
    intro k hk
    by_cases h : (env.resp k).isPending ∧ env.elapsed k ≤ timeout
    · exfalso
      have h1 : k * interval ≤ timeout := le_trans (hlow k) h.2
      have h2 : k ≤ timeout / interval := (Nat.le_div_iff_mul_le hi).mpr h1
      omega
    · exact (pollLoopFuel_exit env interval timeout 0 k h).2
  | succ f ih =>
    intro k hk
    by_cases h : (env.resp k).isPending ∧ env.elapsed k ≤ timeout
    · rw [pollLoopFuel_step env interval timeout f k h.1 h.2]
      exact ih (k + 1) (by omega)
    · exact (pollLoopFuel_exit env interval timeout (f + 1) k h).2

/-! ## Claim theorems -/

/-- C6: for every sequence of poll responses in which the run reaches attempt
N — attempts 0..N-1 are pending (HTTP 200, non-terminal status) within the
timeout bound — and attempt N is the first to carry the succeeded status, the
polling loop returns exactly the output of attempt N and performs no poll
after attempt N (exactly N+1 polls). -/
theorem tryon_C6_first_success (env : PollEnv) (interval timeout N fuel : Nat)
    (hpend : ∀ j, j < N → (env.resp j).isPending ∧ env.elapsed j ≤ timeout)
    (h200 : (env.resp N).httpStatus = 200)
    (hs : (env.resp N).taskStatus = some "SUCCEEDED")
    (hfuel : N ≤ fuel) :
    pollLoopFuel env interval timeout fuel 0 =
      (PollOutcome.success (env.resp N).output, N + 1) := by
  have h := pollLoopFuel_first_success env interval timeout N fuel 0
    (by intro j hj; simpa using hpend j hj) (by simpa using h200)
    (by simpa using hs) hfuel
  simpa using h

/-- Witness for C6 at a concrete environment: success first appears on
attempt 2, the loop returns its output and polls exactly 3 times. -/
theorem tryon_C6_witness :
    pollLoopFuel testPollEnv 3 300 5 0 = (PollOutcome.success testOut, 3) := by
  have h := tryon_C6_first_success testPollEnv 3 300 2 5
    (by intro j hj; interval_cases j <;> exact ⟨by decide, by decide⟩)
    (by decide) (by decide) (by decide)
  exact h.trans (by decide)

/-- C7: the polling loop always terminates: when the elapsed clock grows by
at least the poll interval per iteration, a run with fuel covering the
timeout bound never runs out of fuel — every outcome is a genuine exit
(success, vendor-reported failure, non-2xx poll response, or timeout). -/
theorem tryon_C7_terminates (env : PollEnv) (interval timeout fuel : Nat)
    (hi : 0 < interval)
    (hgap : ∀ k, env.elapsed k + interval ≤ env.elapsed (k + 1))
    (hfuel : timeout / interval + 1 ≤ fuel) :
    (pollLoopFuel env interval timeout fuel 0).1 ≠ PollOutcome.fuelOut ∧
    ((∃ out, (pollLoopFuel env interval timeout fuel 0).1 = PollOutcome.success out) ∨
      (∃ s, (pollLoopFuel env interval timeout fuel 0).1 = PollOutcome.jobFailed s) ∨
      (∃ n, (pollLoopFuel env interval timeout fuel 0).1 = PollOutcome.httpError n) ∨
      (pollLoopFuel env interval timeout fuel 0).1 = PollOutcome.timedOut) := by
  have hne := pollLoopFuel_no_fuelOut env interval timeout hi
    (pollLoopFuel_elapsed_lower env interval hgap) fuel 0 (by omega)
  refine ⟨hne, ?_⟩
  cases h : (pollLoopFuel env interval timeout fuel 0).1 with
  | success out => exact Or.inl ⟨out, rfl⟩
  | jobFailed s => exact Or.inr (Or.inl ⟨s, rfl⟩)
  | httpError n => exact Or.inr (Or.inr (Or.inl ⟨n, rfl⟩))
  | timedOut => exact Or.inr (Or.inr (Or.inr rfl))
  | fuelOut => exact absurd h hne

/-- Witness for C7 at a vendor that reports RUNNING forever: with fuel
covering the 300s bound at 3s per poll, the loop still exits. -/
theorem tryon_C7_witness :
    (pollLoopFuel testPollEnvPending 3 300 101 0).1 ≠ PollOutcome.fuelOut :=
  (tryon_C7_terminates testPollEnvPending 3 300 101 (by decide)
    (fun k => by simp [testPollEnvPending]; omega) (by decide)).1

/-- C10: the polling loop always performs at least one poll, and the timeout
check comes after the status checks: a poll that observes the succeeded
status returns its output even when the elapsed time at that poll already
exceeds the timeout bound. -/
theorem tryon_C10_success_over_timeout (env : PollEnv) (interval timeout fuel : Nat)
    (h200 : (env.resp 0).httpStatus = 200)
    (hs : (env.resp 0).taskStatus = some "SUCCEEDED")
    (hlate : timeout < env.elapsed 0) :
    pollLoopFuel env interval timeout fuel 0 =
      (PollOutcome.success (env.resp 0).output, 1) ∧
    (∀ f k, k + 1 ≤ (pollLoopFuel env interval timeout f k).2) := by
  refine ⟨?_, fun f k => pollLoopFuel_count_ge env interval timeout f k⟩
  simpa using pollLoopFuel_succeeded env interval timeout fuel 0 h200 hs

/-- Witness for C10: first poll succeeds at elapsed time 1000 > 300; the
output is still returned after exactly one poll. -/
theorem tryon_C10_witness :
    pollLoopFuel testPollEnvLate 3 300 5 0 = (PollOutcome.success testOut, 1) := by
  have h := (tryon_C10_success_over_timeout testPollEnvLate 3 300 5
    (by decide) (by decide) (by decide)).1
  exact h.trans (by decide)

/-- C9: model normalization is total (it always yields a supported name or
the configured default — it never raises); a recognized variant name is
returned unchanged; a non-blank unrecognized name is silently replaced by
the configured default; a whitespace-only name also falls back to the
default. -/
theorem tryon_C9_normalize (d : String) (m : Option String) :
    (normalizeModel d m ∈ SUPPORTED_TRYON_MODELS ∨ normalizeModel d m = d) ∧
    (∀ s, s ∈ SUPPORTED_TRYON_MODELS → normalizeModel d (some s) = s) ∧
    (∀ s, s ≠ "" → pyStrip s ≠ "" → pyStrip s ∉ SUPPORTED_TRYON_MODELS →
      normalizeModel d (some s) = d) ∧
    (∀ s, s ≠ "" → pyStrip s = "" → normalizeModel d (some s) = d) := by
  refine ⟨?_, ?_, ?_, ?_⟩
  · unfold normalizeModel
    split
    · exact Or.inl (by assumption)
    · exact Or.inr rfl
  · intro s hs
    have hs' : s = "aitryon" ∨ s = "aitryon-plus" := by
      simpa [SUPPORTED_TRYON_MODELS] using hs
    rcases hs' with rfl | rfl
    · have h1 : pyStrip "aitryon" = "aitryon" := by decide
      simp [normalizeModel, effectiveName, h1, SUPPORTED_TRYON_MODELS]
    · have h1 : pyStrip "aitryon-plus" = "aitryon-plus" := by decide
      simp [normalizeModel, effectiveName, h1, SUPPORTED_TRYON_MODELS]
  · intro s h1 h2 h3
    unfold normalizeModel effectiveName
    simp [h1, h2, h3]
  · intro s h1 h2
    unfold normalizeModel effectiveName
    simp [h1, h2]

/-- Witness for C9: the unrecognized name "fancy-model" is replaced by the
configured default "aitryon-plus". -/
theorem tryon_C9_witness :
    normalizeModel "aitryon-plus" (some "fancy-model") = "aitryon-plus" :=
  (tryon_C9_normalize "aitryon-plus" (some "fancy-model")).2.2.1 "fancy-model"
    (by decide) (by decide) (by decide)

/-- Rational bounds on natural floor division: `⌊a/b⌋ ≤ a/b < ⌊a/b⌋ + 1`. -/
theorem natDiv_rat_bounds (a b : Nat) (hb : 0 < b) :
    ((a / b : Nat) : ℚ) ≤ (a : ℚ) / (b : ℚ) ∧
      (a : ℚ) / (b : ℚ) < ((a / b : Nat) : ℚ) + 1 := by
  constructor
  · exact Nat.cast_div_le
  · have h1 : b * (a / b) + a % b = a := Nat.div_add_mod a b
    have h2 : a % b < b := Nat.mod_lt a hb
    have h3 : a < (a / b + 1) * b := by
      calc a < b * (a / b) + b := by omega
        _ = (a / b + 1) * b := by ring
    have hb' : (0 : ℚ) < (b : ℚ) := by exact_mod_cast hb
    rw [div_lt_iff₀ hb']
    exact_mod_cast h3

/-- Correctness of the fuel-indexed base-2 logarithm. -/
theorem log2fuel_spec : ∀ fuel n, 0 < n → n ≤ fuel →
    2 ^ log2fuel fuel n ≤ n ∧ n < 2 ^ (log2fuel fuel n + 1) := by
  intro fuel
  induction fuel with
  | zero => intro n h1 h2; omega
  | succ f ih =>
    intro n h1 h2
    unfold log2fuel
    by_cases h : 2 ≤ n
    · rw [if_pos h]
      obtain ⟨hl, hr⟩ := ih (n / 2) (by omega) (by omega)
      have e1 : 2 ^ (log2fuel f (n / 2) + 1) = 2 * 2 ^ (log2fuel f (n / 2)) := by ring
      have e2 : 2 ^ (log2fuel f (n / 2) + 1 + 1) = 2 * 2 ^ (log2fuel f (n / 2) + 1) := by
        ring
      constructor
      · rw [e1]; omega
      · rw [e2]; omega
    · rw [if_neg h]
      norm_num
      omega

/-- `2 ^ nlog2 n ≤ n < 2 ^ (nlog2 n + 1)` for positive `n`. -/
theorem nlog2_spec (n : Nat) (h : 0 < n) :
    2 ^ nlog2 n ≤ n ∧ n < 2 ^ (nlog2 n + 1) :=
  log2fuel_spec n n h le_rfl

/-- Round-to-nearest never errs by more than half an integer step. -/
theorem rne_err (a b : Nat) (hb : 0 < b) :
    |((rne a b : Nat) : ℚ) - (a : ℚ) / b| ≤ 1 / 2 := by
  have hdiv := Nat.div_add_mod a b
  have hmod := Nat.mod_lt a hb
  have hbq : (0 : ℚ) < (b : ℚ) := by exact_mod_cast hb
  have hcast : (a : ℚ) = (b : ℚ) * ((a / b : Nat) : ℚ) + ((a % b : Nat) : ℚ) := by
    exact_mod_cast hdiv.symm
  have hval : (a : ℚ) / (b : ℚ) = ((a / b : Nat) : ℚ) + ((a % b : Nat) : ℚ) / b := by
    rw [hcast]; field_simp; ring
  have hrq : (0 : ℚ) ≤ ((a % b : Nat) : ℚ) := by positivity
  have hrlt : ((a % b : Nat) : ℚ) < (b : ℚ) := by exact_mod_cast hmod
  unfold rne
  split
  · rename_i hlt
    have h2r : 2 * ((a % b : Nat) : ℚ) < (b : ℚ) := by exact_mod_cast hlt
    have heq : ((a / b : Nat) : ℚ) - (a : ℚ) / b = -(((a % b : Nat) : ℚ) / b) := by
      rw [hval]; ring
    rw [heq, abs_neg, abs_of_nonneg (by positivity)]
    rw [div_le_div_iff₀ hbq (by norm_num : (0:ℚ) < 2)]
    linarith
  · split
    · rename_i hns hgt
      have h2r : (b : ℚ) < 2 * ((a % b : Nat) : ℚ) := by exact_mod_cast hgt
      have heq : ((a / b + 1 : Nat) : ℚ) - (a : ℚ) / b = 1 - ((a % b : Nat) : ℚ) / b := by
        push_cast
        rw [hval]; ring
      rw [heq, abs_of_nonneg (by rw [sub_nonneg, div_le_one hbq]; linarith)]
      have hhalf : (1 : ℚ) / 2 ≤ ((a % b : Nat) : ℚ) / b := by
        rw [div_le_div_iff₀ (by norm_num) hbq]
        linarith
      linarith
    · rename_i hns hng
      have h2r : 2 * ((a % b : Nat) : ℚ) = (b : ℚ) := by
        have : 2 * (a % b) = b := by omega
        exact_mod_cast this
      split
      · have heq : ((a / b : Nat) : ℚ) - (a : ℚ) / b = -(((a % b : Nat) : ℚ) / b) := by
          rw [hval]; ring
        rw [heq, abs_neg, abs_of_nonneg (by positivity)]
        rw [div_le_div_iff₀ hbq (by norm_num : (0:ℚ) < 2)]
        linarith
      · have heq : ((a / b + 1 : Nat) : ℚ) - (a : ℚ) / b = 1 - ((a % b : Nat) : ℚ) / b := by
          push_cast
          rw [hval]; ring
        rw [heq, abs_of_nonneg (by rw [sub_nonneg, div_le_one hbq]; linarith)]
        have hhalf : (1 : ℚ) / 2 ≤ ((a % b : Nat) : ℚ) / b := by
          rw [div_le_div_iff₀ (by norm_num) hbq]
          linarith
        linarith

/-- Casting `2 ^ n` between ℕ-powers and ℤ-powers of the rational 2. -/
theorem zpow_natCast_q (n : Nat) : (2 : ℚ) ^ (n : ℤ) = ((2 ^ n : ℕ) : ℚ) := by
  push_cast
  exact zpow_natCast 2 n

/-- `ratExp a b` is the binary exponent of `a / b`. -/
theorem ratExp_spec (a b : Nat) (ha : 0 < a) (hb : 0 < b) :
    (2 : ℚ) ^ ratExp a b ≤ (a : ℚ) / b ∧ (a : ℚ) / b < (2 : ℚ) ^ (ratExp a b + 1) := by
  obtain ⟨ha1, ha2⟩ := nlog2_spec a ha
  obtain ⟨hb1, hb2⟩ := nlog2_spec b hb
  have haq : (0 : ℚ) < (a : ℚ) := by exact_mod_cast ha
  have hbq : (0 : ℚ) < (b : ℚ) := by exact_mod_cast hb
  have h2 : (0 : ℚ) < 2 := by norm_num
  have h2ne : (2 : ℚ) ≠ 0 := by norm_num
  -- cast the nlog2 windows to ℚ with ℤ exponents
  have pa1 : (2 : ℚ) ^ ((nlog2 a : ℕ) : ℤ) ≤ (a : ℚ) := by
    rw [zpow_natCast_q]; exact_mod_cast ha1
  have pa2 : (a : ℚ) < (2 : ℚ) ^ (((nlog2 a : ℕ) : ℤ) + 1) := by
    have : (((nlog2 a : ℕ) : ℤ) + 1) = ((nlog2 a + 1 : ℕ) : ℤ) := by push_cast; ring
    rw [this, zpow_natCast_q]; exact_mod_cast ha2
  have pb1 : (2 : ℚ) ^ ((nlog2 b : ℕ) : ℤ) ≤ (b : ℚ) := by
    rw [zpow_natCast_q]; exact_mod_cast hb1
  have pb2 : (b : ℚ) < (2 : ℚ) ^ (((nlog2 b : ℕ) : ℤ) + 1) := by
    have : (((nlog2 b : ℕ) : ℤ) + 1) = ((nlog2 b + 1 : ℕ) : ℤ) := by push_cast; ring
    rw [this, zpow_natCast_q]; exact_mod_cast hb2
  set la : ℤ := ((nlog2 a : ℕ) : ℤ) with hla
  set lb : ℤ := ((nlog2 b : ℕ) : ℤ) with hlb
  -- the window: 2 ^ (la - lb - 1) < a / b < 2 ^ (la - lb + 1)
  have hwin_up : (a : ℚ) / b < (2 : ℚ) ^ (la - lb + 1) := by
    rw [div_lt_iff₀ hbq]
    calc (a : ℚ) < 2 ^ (la + 1) := pa2
      _ = 2 ^ (la - lb + 1) * 2 ^ lb := by rw [← zpow_add₀ h2ne]; ring_nf
      _ ≤ 2 ^ (la - lb + 1) * b := by
          have := zpow_pos h2 (la - lb + 1)
          nlinarith [pb1]
  have hwin_lo : (2 : ℚ) ^ (la - lb - 1) < (a : ℚ) / b := by
    rw [lt_div_iff₀ hbq]
    calc (2 : ℚ) ^ (la - lb - 1) * b < 2 ^ (la - lb - 1) * 2 ^ (lb + 1) := by
          have := zpow_pos h2 (la - lb - 1)
          nlinarith [pb2]
      _ = 2 ^ la := by rw [← zpow_add₀ h2ne]; ring_nf
      _ ≤ a := pa1
  unfold ratExp
  split
  · rename_i hc
    split
    · rename_i ht
      constructor
      · rw [le_div_iff₀ hbq]
        have hcast : ((b * 2 ^ (la - lb).toNat : ℕ) : ℚ) = (b : ℚ) * 2 ^ (la - lb) := by
          push_cast
          rw [← zpow_natCast (2 : ℚ) (la - lb).toNat, Int.toNat_of_nonneg hc]
        have := (Nat.cast_le (α := ℚ)).mpr ht
        rw [hcast] at this
        linarith
      · exact hwin_up
    · rename_i ht
      push_neg at ht
      constructor
      · exact le_of_lt hwin_lo
      · have hcast : ((b * 2 ^ (la - lb).toNat : ℕ) : ℚ) = (b : ℚ) * 2 ^ (la - lb) := by
          push_cast
          rw [← zpow_natCast (2 : ℚ) (la - lb).toNat, Int.toNat_of_nonneg hc]
        have := (Nat.cast_lt (α := ℚ)).mpr ht
        rw [hcast] at this
        have : (a : ℚ) / b < 2 ^ (la - lb) := by
          rw [div_lt_iff₀ hbq]
          linarith
        calc (a : ℚ) / b < 2 ^ (la - lb) := this
          _ = 2 ^ (la - lb - 1 + 1) := by ring_nf
  · rename_i hc
    push_neg at hc
    have hcneg : 0 ≤ lb - la := by omega
    have hcast : ((a * 2 ^ (lb - la).toNat : ℕ) : ℚ) = (a : ℚ) * 2 ^ (lb - la) := by
      push_cast
      rw [← zpow_natCast (2 : ℚ) (lb - la).toNat, Int.toNat_of_nonneg hcneg]
    have hpow_pos := zpow_pos h2 (lb - la)
    split
    · rename_i ht
      constructor
      · rw [le_div_iff₀ hbq]
        have hq := (Nat.cast_le (α := ℚ)).mpr ht
        rw [hcast] at hq
        -- b ≤ a * 2^(lb-la)  ⟹  2^(la-lb) * b ≤ a
        have hmul := mul_le_mul_of_nonneg_right hq (le_of_lt (zpow_pos h2 (la - lb)))
        rw [mul_assoc, ← zpow_add₀ h2ne] at hmul
        simp at hmul
        linarith [hmul]
      · exact hwin_up
    · rename_i ht
      push_neg at ht
      constructor
      · exact le_of_lt hwin_lo
      · have hq := (Nat.cast_lt (α := ℚ)).mpr ht
        rw [hcast] at hq
        -- a * 2^(lb-la) < b  ⟹  a/b < 2^(la-lb)
        have : (a : ℚ) / b < 2 ^ (la - lb) := by
          rw [div_lt_iff₀ hbq]
          have hmul := mul_lt_mul_of_pos_right hq (zpow_pos h2 (la - lb))
          rw [mul_assoc, ← zpow_add₀ h2ne] at hmul
          simp at hmul
          linarith [hmul]
        calc (a : ℚ) / b < 2 ^ (la - lb) := this
          _ = 2 ^ (la - lb - 1 + 1) := by ring_nf

/-- IEEE binary64 rounding has relative error at most the unit roundoff:
`|fl(a / b) - a / b| ≤ (a / b) · 2⁻⁵³`, and the returned denominator is
positive. -/
theorem roundPosRat_err (a b : Nat) (ha : 0 < a) (hb : 0 < b) :
    0 < (roundPosRat a b).2 ∧
    |(((roundPosRat a b).1 : ℕ) : ℚ) / (((roundPosRat a b).2 : ℕ) : ℚ) - (a : ℚ) / b| ≤
      ((a : ℚ) / b) * u53 := by
  obtain ⟨hE1, hE2⟩ := ratExp_spec a b ha hb
  have h2ne : (2 : ℚ) ≠ 0 := by norm_num
  have hbq : (0 : ℚ) < (b : ℚ) := by exact_mod_cast hb
  have hvpos : (0 : ℚ) < (a : ℚ) / b := by positivity
  unfold roundPosRat
  split
  · rename_i hsh
    set s : ℕ := (ratExp a b - 52).toNat with hs
    have hsz : (s : ℤ) = ratExp a b - 52 := Int.toNat_of_nonneg hsh
    have hBpos : 0 < b * 2 ^ s := by positivity
    have herr := rne_err a (b * 2 ^ s) hBpos
    refine ⟨by norm_num, ?_⟩
    set R := ((rne a (b * 2 ^ s) : ℕ) : ℚ) with hR
    have hXv : ((a : ℚ) / ((b * 2 ^ s : ℕ) : ℚ)) * 2 ^ (s : ℕ) = (a : ℚ) / b := by
      push_cast
      rw [div_mul_eq_mul_div, mul_comm (b : ℚ) _, ← div_div]
      rw [mul_div_assoc, div_self (by positivity : ((2 : ℚ) ^ s) ≠ 0), mul_one]
    have hval : (((rne a (b * 2 ^ s) * 2 ^ s : ℕ)) : ℚ) / ((1 : ℕ) : ℚ) =
        R * 2 ^ (s : ℕ) := by push_cast; ring
    rw [hval]
    have heq : R * 2 ^ (s : ℕ) - (a : ℚ) / b =
        (R - (a : ℚ) / ((b * 2 ^ s : ℕ) : ℚ)) * 2 ^ (s : ℕ) := by
      rw [← hXv]; ring
    rw [heq, abs_mul, abs_of_nonneg (by positivity : (0 : ℚ) ≤ 2 ^ (s : ℕ))]
    have hstep : |R - (a : ℚ) / ((b * 2 ^ s : ℕ) : ℚ)| * 2 ^ (s : ℕ) ≤
        (1 / 2) * 2 ^ (s : ℕ) :=
      mul_le_mul_of_nonneg_right herr (by positivity)
    refine le_trans hstep ?_
    -- (1/2) * 2^s ≤ v * u53  ⟺  2^(s+52) ≤ v
    have hpow : (2 : ℚ) ^ (s + 52 : ℕ) ≤ (a : ℚ) / b := by
      have hcongr : (2 : ℚ) ^ (s + 52 : ℕ) = (2 : ℚ) ^ (ratExp a b) := by
        rw [← zpow_natCast (2 : ℚ) (s + 52)]
        congr 1
        omega
      rw [hcongr]
      exact hE1
    rw [u53, show ((2 : ℚ) ^ (53 : ℕ))⁻¹ = 1 / 2 ^ (53 : ℕ) from by ring]
    rw [show ((a : ℚ) / b) * (1 / 2 ^ (53 : ℕ)) = ((a : ℚ) / b) / 2 ^ (53 : ℕ) from by
      ring]
    rw [le_div_iff₀ (by positivity : (0 : ℚ) < 2 ^ (53 : ℕ))]
    calc (1 / 2) * 2 ^ (s : ℕ) * 2 ^ (53 : ℕ) = 2 ^ (s + 52 : ℕ) := by
          rw [pow_add, show ((2 : ℚ) ^ (53 : ℕ)) = 2 * 2 ^ (52 : ℕ) from by ring]
          ring
      _ ≤ (a : ℚ) / b := hpow
  · rename_i hsh
    push_neg at hsh
    set k : ℕ := (52 - ratExp a b).toNat with hk
    have hkz : (k : ℤ) = 52 - ratExp a b := Int.toNat_of_nonneg (by omega)
    have hApos : 0 < a * 2 ^ k := by positivity
    have herr := rne_err (a * 2 ^ k) b hb
    refine ⟨by positivity, ?_⟩
    set R := ((rne (a * 2 ^ k) b : ℕ) : ℚ) with hR
    have hX : ((a * 2 ^ k : ℕ) : ℚ) / b = ((a : ℚ) / b) * 2 ^ (k : ℕ) := by
      push_cast; ring
    rw [hX] at herr
    have hcastden : (((2 ^ k : ℕ) : ℕ) : ℚ) = (2 : ℚ) ^ (k : ℕ) := by push_cast; rfl
    rw [hcastden]
    have hpk : (0 : ℚ) < 2 ^ (k : ℕ) := by positivity
    have heq : R / 2 ^ (k : ℕ) - (a : ℚ) / b =
        (R - ((a : ℚ) / b) * 2 ^ (k : ℕ)) / 2 ^ (k : ℕ) := by
      field_simp
      ring
    rw [heq, abs_div, abs_of_nonneg (le_of_lt hpk), div_le_iff₀ hpk]
    refine le_trans herr ?_
    -- 1/2 ≤ v * u53 * 2^k  ⟺  2^52 ≤ v * 2^k
    have hmul : (2 : ℚ) ^ (52 : ℕ) ≤ ((a : ℚ) / b) * 2 ^ (k : ℕ) := by
      rw [← zpow_natCast (2 : ℚ) 52, ← zpow_natCast (2 : ℚ) k]
      calc (2 : ℚ) ^ ((52 : ℕ) : ℤ) = 2 ^ ratExp a b * 2 ^ ((k : ℕ) : ℤ) := by
            rw [← zpow_add₀ h2ne]
            congr 1
            omega
        _ ≤ ((a : ℚ) / b) * 2 ^ ((k : ℕ) : ℤ) :=
            mul_le_mul_of_nonneg_right hE1
              (le_of_lt (zpow_pos (by norm_num : (0 : ℚ) < 2) ((k : ℕ) : ℤ)))
    rw [u53, show ((2 : ℚ) ^ (53 : ℕ))⁻¹ = 1 / 2 ^ (53 : ℕ) from by ring]
    rw [show ((a : ℚ) / b) * (1 / 2 ^ (53 : ℕ)) * 2 ^ (k : ℕ) =
        (((a : ℚ) / b) * 2 ^ (k : ℕ)) / 2 ^ (53 : ℕ) from by ring]
    rw [le_div_iff₀ (by positivity : (0 : ℚ) < 2 ^ (53 : ℕ))]
    calc (1 / 2 : ℚ) * 2 ^ (53 : ℕ) = 2 ^ (52 : ℕ) := by
          rw [show ((2 : ℚ) ^ (53 : ℕ)) = 2 * 2 ^ (52 : ℕ) from by ring]
          ring
      _ ≤ ((a : ℚ) / b) * 2 ^ (k : ℕ) := hmul

set_option maxHeartbeats 800000 in
/-- Bounds on the double-precision resize `int(x * (4000 / m))` for
`0 < x ≤ m`, `4000 < m`: the result is at most 4000, within 2 pixels of the
exact proportional value `x·4000/m`, and equal to 3999 or 4000 when `x = m`
(the long side). -/
theorem floatScaled_bounds (x m : Nat) (hx : 0 < x) (hm : 4000 < m) (hxm : x ≤ m) :
    floatScaled 4000 x m ≤ 4000 ∧
    |((floatScaled 4000 x m : Nat) : ℚ) - (x : ℚ) * 4000 / m| < 2 ∧
    (x = m → 3999 ≤ floatScaled 4000 x m) := by
  have hmq : (0 : ℚ) < (m : ℚ) := by exact_mod_cast (by omega : 0 < m)
  have hxq : (0 : ℚ) < (x : ℚ) := by exact_mod_cast hx
  have hxmq : (x : ℚ) ≤ (m : ℚ) := by exact_mod_cast hxm
  have hu0 : (0 : ℚ) < u53 := by norm_num [u53]
  have hu1 : u53 < 1 := by norm_num [u53]
  obtain ⟨hd1, herr1⟩ := roundPosRat_err 4000 m (by norm_num) (by omega)
  push_cast at herr1
  set n1 := (roundPosRat 4000 m).1 with hn1e
  set d1 := (roundPosRat 4000 m).2 with hd1e
  have hv1pos : (0 : ℚ) < (4000 : ℚ) / m := by positivity
  obtain ⟨habs1l, habs1r⟩ := abs_le.mp herr1
  have hs_up : (n1 : ℚ) / (d1 : ℚ) ≤ ((4000 : ℚ) / m) * (1 + u53) := by
    have hexp : ((4000 : ℚ) / m) * (1 + u53) =
        (4000 : ℚ) / m + ((4000 : ℚ) / m) * u53 := by ring
    linarith
  have hs_lo : ((4000 : ℚ) / m) * (1 - u53) ≤ (n1 : ℚ) / (d1 : ℚ) := by
    have hexp : ((4000 : ℚ) / m) * (1 - u53) =
        (4000 : ℚ) / m - ((4000 : ℚ) / m) * u53 := by ring
    linarith
  have hshpos : (0 : ℚ) < (n1 : ℚ) / (d1 : ℚ) := by
    have h0 : (0 : ℚ) < ((4000 : ℚ) / m) * (1 - u53) := by nlinarith
    linarith
  have hn1pos : 0 < n1 := by
    by_contra hz
    have hz0 : n1 = 0 := by omega
    rw [hz0] at hshpos
    norm_num at hshpos
  obtain ⟨hd2, herr2⟩ := roundPosRat_err (x * n1) d1 (Nat.mul_pos hx hn1pos) hd1
  set n2 := (roundPosRat (x * n1) d1).1 with hn2e
  set d2 := (roundPosRat (x * n1) d1).2 with hd2e
  have hv2 : ((x * n1 : ℕ) : ℚ) / (d1 : ℚ) = (x : ℚ) * ((n1 : ℚ) / (d1 : ℚ)) := by
    push_cast
    ring
  rw [hv2] at herr2
  obtain ⟨habs2l, habs2r⟩ := abs_le.mp herr2
  have hxshpos : (0 : ℚ) < (x : ℚ) * ((n1 : ℚ) / (d1 : ℚ)) := mul_pos hxq hshpos
  have hxsh_up : (x : ℚ) * ((n1 : ℚ) / (d1 : ℚ)) ≤ ((x : ℚ) * 4000 / m) * (1 + u53) := by
    have h1 := mul_le_mul_of_nonneg_left hs_up (le_of_lt hxq)
    calc (x : ℚ) * ((n1 : ℚ) / (d1 : ℚ)) ≤ (x : ℚ) * (((4000 : ℚ) / m) * (1 + u53)) := h1
      _ = ((x : ℚ) * 4000 / m) * (1 + u53) := by ring
  have hxsh_lo : ((x : ℚ) * 4000 / m) * (1 - u53) ≤ (x : ℚ) * ((n1 : ℚ) / (d1 : ℚ)) := by
    have h1 := mul_le_mul_of_nonneg_left hs_lo (le_of_lt hxq)
    calc ((x : ℚ) * 4000 / m) * (1 - u53) = (x : ℚ) * (((4000 : ℚ) / m) * (1 - u53)) := by
          ring
      _ ≤ (x : ℚ) * ((n1 : ℚ) / (d1 : ℚ)) := h1
  have hvhat_up : (n2 : ℚ) / (d2 : ℚ) ≤ ((x : ℚ) * 4000 / m) * (1 + u53) * (1 + u53) := by
    have h1 : (n2 : ℚ) / (d2 : ℚ) ≤ ((x : ℚ) * ((n1 : ℚ) / (d1 : ℚ))) * (1 + u53) := by
      have hexp : ((x : ℚ) * ((n1 : ℚ) / (d1 : ℚ))) * (1 + u53) =
          (x : ℚ) * ((n1 : ℚ) / (d1 : ℚ)) + (x : ℚ) * ((n1 : ℚ) / (d1 : ℚ)) * u53 := by
        ring
      linarith
    have h2 := mul_le_mul_of_nonneg_right hxsh_up (by linarith : (0 : ℚ) ≤ 1 + u53)
    linarith
  have hvhat_lo : ((x : ℚ) * 4000 / m) * (1 - u53) * (1 - u53) ≤ (n2 : ℚ) / (d2 : ℚ) := by
    have h1 : ((x : ℚ) * ((n1 : ℚ) / (d1 : ℚ))) * (1 - u53) ≤ (n2 : ℚ) / (d2 : ℚ) := by
      have hexp : ((x : ℚ) * ((n1 : ℚ) / (d1 : ℚ))) * (1 - u53) =
          (x : ℚ) * ((n1 : ℚ) / (d1 : ℚ)) - (x : ℚ) * ((n1 : ℚ) / (d1 : ℚ)) * u53 := by
        ring
      linarith
    have h2 := mul_le_mul_of_nonneg_right hxsh_lo (by linarith : (0 : ℚ) ≤ 1 - u53)
    linarith
  have hEpos : (0 : ℚ) < (x : ℚ) * 4000 / m := by positivity
  have hE4000 : (x : ℚ) * 4000 / m ≤ 4000 := by
    rw [div_le_iff₀ hmq]
    nlinarith
  have hnum_up : ((x : ℚ) * 4000 / m) * (1 + u53) * (1 + u53) < (x : ℚ) * 4000 / m + 1 := by
    have hexp : ((x : ℚ) * 4000 / m) * (1 + u53) * (1 + u53) =
        (x : ℚ) * 4000 / m + ((x : ℚ) * 4000 / m) * (2 * u53 + u53 ^ 2) := by ring
    have h1 : ((x : ℚ) * 4000 / m) * (2 * u53 + u53 ^ 2) ≤ 4000 * (2 * u53 + u53 ^ 2) :=
      mul_le_mul_of_nonneg_right hE4000 (by positivity)
    have h2 : (4000 : ℚ) * (2 * u53 + u53 ^ 2) < 1 := by norm_num [u53]
    linarith
  have hnum_lo : (x : ℚ) * 4000 / m - 1 < ((x : ℚ) * 4000 / m) * (1 - u53) * (1 - u53) := by
    have hexp : ((x : ℚ) * 4000 / m) * (1 - u53) * (1 - u53) =
        (x : ℚ) * 4000 / m - ((x : ℚ) * 4000 / m) * (2 * u53 - u53 ^ 2) := by ring
    have hpos : (0 : ℚ) ≤ 2 * u53 - u53 ^ 2 := by nlinarith
    have h1 : ((x : ℚ) * 4000 / m) * (2 * u53 - u53 ^ 2) ≤ 4000 * (2 * u53 - u53 ^ 2) :=
      mul_le_mul_of_nonneg_right hE4000 hpos
    have h2 : (4000 : ℚ) * (2 * u53 - u53 ^ 2) < 1 := by norm_num [u53]
    linarith
  obtain ⟨hfl, hfu⟩ := natDiv_rat_bounds n2 d2 hd2
  have hout : floatScaled 4000 x m = n2 / d2 := by
    unfold floatScaled
    rw [← hn1e, ← hd1e, ← hn2e, ← hd2e]
  rw [hout]
  have hub : (((n2 / d2 : ℕ)) : ℚ) < (x : ℚ) * 4000 / m + 1 := by linarith
  have hlb : (x : ℚ) * 4000 / m - 2 < (((n2 / d2 : ℕ)) : ℚ) := by linarith
  refine ⟨?_, ?_, ?_⟩
  · have h4001 : (((n2 / d2 : ℕ)) : ℚ) < ((4001 : ℕ) : ℚ) := by
      push_cast
      linarith
    have := (Nat.cast_lt (α := ℚ)).mp h4001
    omega
  · rw [abs_lt]
    constructor <;> linarith
  · intro hxe
    have hEeq : (x : ℚ) * 4000 / m = 4000 := by
      rw [hxe]
      field_simp
    rw [hEeq] at hlb
    have h3998 : ((3998 : ℕ) : ℚ) < (((n2 / d2 : ℕ)) : ℚ) := by
      push_cast
      linarith
    have := (Nat.cast_lt (α := ℚ)).mp h3998
    omega

/-- Counterexample to C8 as stated: for a 4210×4210 image, IEEE double
rounding makes `int(4210 * (4000 / 4210))` equal to 3999, so the resized
longer side is 3999, not 4000 (the exact-arithmetic floor would give 4000). -/
theorem tryon_C8_counterexample :
    prepareImage 4000 150 (ImageData.decoded 4210 4210) =
      Except.ok (3999, 3999) ∧ (3999 : Nat) ≠ 4000 := by
  exact ⟨by decide, by decide⟩

/-- C8 (amended): images whose longer side is at most 4000 keep their
dimensions unchanged; for a decodable image (shorter side at least 150)
whose longer side m exceeds 4000 — with m < 2^53, where CPython's
int-to-float conversions are exact and the model is bit-faithful — each
output dimension is the IEEE-double computation `int(side * (4000 / m))`,
the output's longer side is 3999 or 4000 (double rounding can yield 3999
instead of 4000), and each output dimension is within 2 pixels of the exact
proportional value `side * 4000 / m`. -/
theorem tryon_C8_resize_amended (w h : Nat) (hmin : 150 ≤ min w h) :
    (max w h ≤ 4000 →
      prepareImage 4000 150 (ImageData.decoded w h) = Except.ok (w, h)) ∧
    (4000 < max w h → max w h < 2 ^ 53 →
      prepareImage 4000 150 (ImageData.decoded w h) =
        Except.ok (floatScaled 4000 w (max w h), floatScaled 4000 h (max w h)) ∧
      3999 ≤ max (floatScaled 4000 w (max w h)) (floatScaled 4000 h (max w h)) ∧
      max (floatScaled 4000 w (max w h)) (floatScaled 4000 h (max w h)) ≤ 4000 ∧
      |((floatScaled 4000 w (max w h) : Nat) : ℚ) - (w : ℚ) * 4000 / ((max w h : Nat) : ℚ)| < 2 ∧
      |((floatScaled 4000 h (max w h) : Nat) : ℚ) - (h : ℚ) * 4000 / ((max w h : Nat) : ℚ)| < 2) := by
  have hwmin := min_le_left w h
  have hhmin := min_le_right w h
  have hw : 0 < w := by omega
  have hh : 0 < h := by omega
  constructor
  · intro hle
    simp only [prepareImage]
    rw [if_neg (by omega), if_neg (by omega)]
  · intro hgt _h53
    have heq : prepareImage 4000 150 (ImageData.decoded w h) =
        Except.ok (floatScaled 4000 w (max w h), floatScaled 4000 h (max w h)) := by
      simp only [prepareImage]
      rw [if_neg (by omega), if_pos hgt]
    obtain ⟨hw4000, hwabs, hwld⟩ :=
      floatScaled_bounds w (max w h) hw hgt (le_max_left w h)
    obtain ⟨hh4000, hhabs, hhld⟩ :=
      floatScaled_bounds h (max w h) hh hgt (le_max_right w h)
    refine ⟨heq, ?_, max_le hw4000 hh4000, hwabs, hhabs⟩
    rcases max_cases w h with ⟨hme, _⟩ | ⟨hme, _⟩
    · exact le_trans (hwld hme.symm) (le_max_left _ _)
    · exact le_trans (hhld hme.symm) (le_max_right _ _)

/-- Witness for C8 (amended) at concrete inputs: a 1000×500 image passes
through unchanged, and for an 8000×6000 image the resized longer side is
between 3999 and 4000. -/
theorem tryon_C8_witness :
    prepareImage 4000 150 (ImageData.decoded 1000 500) = Except.ok (1000, 500) ∧
    3999 ≤ max (floatScaled 4000 8000 (max 8000 6000))
      (floatScaled 4000 6000 (max 8000 6000)) := by
  refine ⟨(tryon_C8_resize_amended 1000 500 (by decide)).1 (by decide), ?_⟩
  exact ((tryon_C8_resize_amended 8000 6000 (by decide)).2 (by decide) (by decide)).2.1

/-- Counterexample to C1 as stated: for a 100×100 person image (shorter side
below 150) the flow does fail with the undersized-image validation error,
but a vendor HTTP call — the upload-policy fetch — has already been made,
because `generate_tryon_image` fetches the policy before `_prepare_image`. -/
theorem tryon_C1_counterexample :
    (generateTryonImage testCfg testEnv (ImageData.decoded 100 100)
      (ImageData.decoded 900 700) none 5).result = Except.error TryOnError.tooSmall ∧
    VendorCall.policyFetch ∈ (generateTryonImage testCfg testEnv (ImageData.decoded 100 100)
      (ImageData.decoded 900 700) none 5).calls := by
  decide

/-- C1 (amended): for every input image whose shorter side is below 150
pixels — whether it is the person image or the outfit image (the latter
provided the person image itself preprocesses successfully, since the person
image is prepared first) — the flow fails with the validation error and no
asset upload, job submission, or poll is made; the only vendor call is the
upload-policy fetch, which precedes preprocessing. -/
theorem tryon_C1_validation_before_upload (cfg : Config) (env : VendorEnv)
    (key : String) (modelArg : Option String) (fuel w h : Nat)
    (hkey : cfg.apiKey = some key) (hpol : env.policyStatus = 200)
    (hsmall : min w h < 150) :
    (∀ outfitImg,
      generateTryonImage cfg env (ImageData.decoded w h) outfitImg modelArg fuel =
        ⟨Except.error TryOnError.tooSmall, [VendorCall.policyFetch], []⟩) ∧
    (∀ userImg du, prepareImage 4000 150 userImg = Except.ok du →
      generateTryonImage cfg env userImg (ImageData.decoded w h) modelArg fuel =
        ⟨Except.error TryOnError.tooSmall, [VendorCall.policyFetch], []⟩) := by
  have hprep : prepareImage 4000 150 (ImageData.decoded w h) =
      Except.error TryOnError.tooSmall := by
    simp only [prepareImage]
    rw [if_pos hsmall]
  constructor
  · intro outfitImg
    unfold generateTryonImage
    rw [hkey]
    simp [hpol, hprep]
  · intro userImg du hdu
    unfold generateTryonImage
    rw [hkey]
    simp [hpol, hdu, hprep]

/-- Witness for C1 (amended) at a concrete environment, exercising both the
undersized-person and the undersized-outfit case. -/
theorem tryon_C1_witness :
    generateTryonImage testCfg testEnv (ImageData.decoded 100 149)
      (ImageData.decoded 900 700) none 5 =
      ⟨Except.error TryOnError.tooSmall, [VendorCall.policyFetch], []⟩ ∧
    generateTryonImage testCfg testEnv (ImageData.decoded 900 700)
      (ImageData.decoded 100 149) none 5 =
      ⟨Except.error TryOnError.tooSmall, [VendorCall.policyFetch], []⟩ := by
  have h := tryon_C1_validation_before_upload testCfg testEnv "key" none 5 100 149
    rfl rfl (by decide)
  exact ⟨h.1 (ImageData.decoded 900 700),
    h.2 (ImageData.decoded 900 700) (900, 700) (by decide)⟩

/-- Counterexample to C2 as stated: an undersized image (a validation error
per the spec's taxonomy) is returned by POST /tryon as 502
`{code: "try_on_failed"}`, not as a 4xx status. -/
theorem tryon_C2_counterexample :
    (tryOnRoute testCfg testEnv false false (ImageData.decoded 100 100)
      (ImageData.decoded 900 700) none 5 "uid").1 =
      RouterResp.err 502 "try_on_failed" ∧
    ∀ s c, (tryOnRoute testCfg testEnv false false (ImageData.decoded 100 100)
      (ImageData.decoded 900 700) none 5 "uid").1 = RouterResp.err s c → 500 ≤ s := by
  have h : (tryOnRoute testCfg testEnv false false (ImageData.decoded 100 100)
      (ImageData.decoded 900 700) none 5 "uid").1 =
      RouterResp.err 502 "try_on_failed" := by decide
  refine ⟨h, ?_⟩
  intro s c hsc
  rw [h] at hsc
  injection hsc with h1 h2
  omega

/-- C2 (amended): every `TryOnServiceError` raised by the service — vendor
failures and validation failures alike — is returned by the router as 502
`{code: "try_on_failed"}`; only an empty uploaded file yields a 4xx (400). -/
theorem tryon_C2_all_errors_502 (cfg : Config) (env : VendorEnv)
    (userImg outfitImg : ImageData) (modelArg : Option String) (fuel : Nat)
    (freshId : String) :
    (∀ e, (generateTryonImage cfg env userImg outfitImg modelArg fuel).result =
        Except.error e →
      (tryOnRoute cfg env false false userImg outfitImg modelArg fuel freshId).1 =
        RouterResp.err 502 "try_on_failed") ∧
    (∀ oe uImg oImg, (tryOnRoute cfg env true oe uImg oImg modelArg fuel freshId).1 =
      RouterResp.err 400 "user_image_missing") ∧
    (∀ uImg oImg, (tryOnRoute cfg env false true uImg oImg modelArg fuel freshId).1 =
      RouterResp.err 400 "outfit_image_missing") := by
  refine ⟨?_, ?_, ?_⟩
  · intro e he
    unfold tryOnRoute
    simp [he]
  · intro oe u o
    unfold tryOnRoute
    simp
  · intro u o
    unfold tryOnRoute
    simp

/-- Witness for C2 (amended): the undersized-image error from the 2×2 input
surfaces as 502 try_on_failed. -/
theorem tryon_C2_witness :
    (tryOnRoute testCfg testEnv false false (ImageData.decoded 2 2)
      (ImageData.decoded 900 700) none 5 "uid").1 =
      RouterResp.err 502 "try_on_failed" :=
  (tryon_C2_all_errors_502 testCfg testEnv (ImageData.decoded 2 2)
    (ImageData.decoded 900 700) none 5 "uid").1 TryOnError.tooSmall (by decide)

/-- Witness for C3 at a fully successful concrete run: a file is written. -/
theorem tryon_C3_witness :
    (generateTryonImage testCfg testEnv (ImageData.decoded 800 600)
      (ImageData.decoded 900 700) none 5).writes ≠ [] := by
  have h := (tryon_C3_persist_iff_success testCfg testEnv (ImageData.decoded 800 600)
    (ImageData.decoded 900 700) none 5).1
  exact h.mpr ⟨⟨[7, 7], "aitryon-plus", "dashscope outfitanyone aitryon-plus",
    "task42", "/static/tryon_results/task42.png"⟩, by decide⟩

/-- Counterexample to C4 as stated: with the result dir `["results"]` (not
under the static root) the computed static URL is indeed none, but the
success payload's imageUrl is the vendor's remote URL, not null — the code
substitutes `image_url` via `static_url or image_url`. -/
theorem tryon_C4_counterexample :
    staticUrlFor testCfgNoStatic.resultDir "task42.png" = none ∧
    (tryOnRoute testCfgNoStatic testEnv false false (ImageData.decoded 800 600)
      (ImageData.decoded 900 700) none 5 "uid").1 =
      RouterResp.ok ⟨"task42", [7, 7], some "http://vendor/img.png", "aitryon-plus",
        "dashscope outfitanyone aitryon-plus", "换装完成"⟩ := by
  exact ⟨rfl, by decide⟩

/-- C4 (amended): when the stored result path does not lie under the static
root, the computed static URL is none, and the service falls back to the
vendor's remote image URL in the success payload (the base64 bytes are still
returned); the payload's imageUrl is never null on success. -/
theorem tryon_C4_vendor_url_fallback (cfg : Config) (env : VendorEnv)
    (userImg outfitImg : ImageData) (modelArg : Option String) (fuel : Nat)
    (key : String) (du dg : Nat × Nat) (pol : UploadPolicy)
    (taskId url : String) (out : TaskOutput) (n : Nat)
    (hkey : cfg.apiKey = some key) (hpol : env.policyStatus = 200)
    (hu : prepareImage 4000 150 userImg = .ok du)
    (hg : prepareImage 4000 150 outfitImg = .ok dg)
    (hdata : env.policyData = some pol)
    (hup1 : env.uploadStatus (pol.upload_dir ++ "/person.jpg") = 200)
    (hup2 : env.uploadStatus (pol.upload_dir ++ "/garment.jpg") = 200)
    (hcr : env.createStatus = 200)
    (htid : env.createTaskId = some taskId) (htne : taskId ≠ "")
    (hpoll : pollLoopFuel env.poll 3 300 fuel 0 = (PollOutcome.success out, n))
    (hurl : out.image_url = some url) (hune : url ≠ "")
    (hdl : env.downloadStatus url = 200)
    (hnostatic : staticUrlFor cfg.resultDir (taskId ++ ".png") = none) :
    (∀ dir f, (∀ rest, dir ≠ "static" :: rest) → staticUrlFor dir f = none) ∧
    (generateTryonImage cfg env userImg outfitImg modelArg fuel).result =
      Except.ok ⟨env.downloadBytes url, normalizeModel cfg.tryonModel modelArg,
        "dashscope outfitanyone " ++ normalizeModel cfg.tryonModel modelArg,
        taskId, url⟩ := by
  constructor
  · intro dir f hd
    cases dir with
    | nil => rfl
    | cons a rest =>
      rcases eq_or_ne a "static" with rfl | hne
      · exact absurd rfl (hd rest)
      · simp [staticUrlFor, hne]
  · rw [generateTryonImage_happy cfg env userImg outfitImg modelArg fuel key du dg
      pol taskId out n hkey hpol hu hg hdata hup1 hup2 hcr htid htne hpoll]
    show (resolveAndPersist env cfg (normalizeModel cfg.tryonModel modelArg)
      taskId out).result = _
    unfold resolveAndPersist
    rw [hurl]
    simp [hune, hdl, hnostatic]

/-- Witness for C4 (amended) at the concrete no-static configuration. -/
theorem tryon_C4_witness :
    (generateTryonImage testCfgNoStatic testEnv (ImageData.decoded 800 600)
      (ImageData.decoded 900 700) none 5).result =
      Except.ok ⟨[7, 7], "aitryon-plus", "dashscope outfitanyone aitryon-plus",
        "task42", "http://vendor/img.png"⟩ := by
  have h := (tryon_C4_vendor_url_fallback testCfgNoStatic testEnv
    (ImageData.decoded 800 600) (ImageData.decoded 900 700) none 5 "key"
    (800, 600) (900, 700) testPolicy "task42" "http://vendor/img.png" testOut 3
    rfl rfl (by decide) (by decide) rfl rfl rfl rfl rfl (by decide) (by decide)
    rfl (by decide) rfl (by decide)).2
  exact h.trans (by decide)

/-- Counterexample to C5 as stated: the vendor reports success with inline
encoded bytes but no direct URL; the code does not decode the inline bytes —
it fails with the missing-result error. -/
theorem tryon_C5_counterexample :
    testOutInline.inline_b64 = some [1, 2, 3] ∧
    testOutInline.image_url = none ∧
    (generateTryonImage testCfg testEnvInline (ImageData.decoded 800 600)
      (ImageData.decoded 900 700) none 5).result =
      Except.error TryOnError.noImageUrl := by
  exact ⟨rfl, rfl, by decide⟩

/-- C5 (amended): after a succeeded poll the orchestrator resolves only a
direct URL: with a (truthy) URL it downloads the bytes — returning them on
HTTP 200 and failing with the download error otherwise; with no URL it fails
with the missing-result error and performs no download, regardless of any
inline encoded bytes in the output (there is no inline-decoding path). -/
theorem tryon_C5_resolve_url_only (env : VendorEnv) (cfg : Config)
    (m t : String) (out : TaskOutput) :
    (out.image_url = none →
      (resolveAndPersist env cfg m t out).result = Except.error TryOnError.noImageUrl ∧
      (resolveAndPersist env cfg m t out).calls = []) ∧
    (∀ url, out.image_url = some url → url ≠ "" →
      (resolveAndPersist env cfg m t out).calls = [VendorCall.resultDownload url] ∧
      (env.downloadStatus url = 200 →
        ∃ p, (resolveAndPersist env cfg m t out).result = Except.ok p ∧
          p.result_image_base64 = env.downloadBytes url) ∧
      (env.downloadStatus url ≠ 200 →
        (resolveAndPersist env cfg m t out).result =
          Except.error (TryOnError.downloadHttp (env.downloadStatus url)))) := by
  constructor
  · intro hnone
    unfold resolveAndPersist
    rw [hnone]
    exact ⟨rfl, rfl⟩
  · intro url hurl hne
    refine ⟨?_, ?_, ?_⟩
    · unfold resolveAndPersist
      rw [hurl]
      simp only [if_neg hne]
      by_cases hd : env.downloadStatus url = 200 <;> simp [hd]
    · intro h200
      refine ⟨⟨env.downloadBytes url, m, "dashscope outfitanyone " ++ m, t,
          match staticUrlFor cfg.resultDir (t ++ ".png") with
          | some s => if s = "" then url else s
          | none => url⟩, ?_, rfl⟩
      unfold resolveAndPersist
      rw [hurl]
      simp [hne, h200]
    · intro hnd
      unfold resolveAndPersist
      rw [hurl]
      simp [hne, hnd]

/-- Witness for C5 (amended): with only inline bytes and no URL, resolution
fails with the missing-result error and makes no download call. -/
theorem tryon_C5_witness :
    (resolveAndPersist testEnvInline testCfg "aitryon-plus" "task42"
      testOutInline).result = Except.error TryOnError.noImageUrl :=
  ((tryon_C5_resolve_url_only testEnvInline testCfg "aitryon-plus" "task42"
    testOutInline).1 rfl).1
